import Mathlib

/-!
Shallow embedding of the core of the evm-rs-emulator EVM interpreter
(src/core_module): stack, memory, world state, arithmetic opcodes and the
nested call protocol, translated from the Rust source.  Machine integers are
modelled as Nat with explicit reductions modulo powers of two; Rust Result
values become Except; a Rust panic, or an out of bounds unsafe copy
(undefined behaviour), is modelled as Option.none.  The Vec backed stack in
the source keeps its top at the end of the vector; here the list head is the
top, so the Vec index (len - 1 - k) corresponds to list index k.
-/

set_option maxRecDepth 8000

namespace EvmRs

/-- Bytes and byte strings: a byte is a Nat below 256. -/
abbrev Bytes := List Nat

/-- Account addresses are 20 byte strings. -/
abbrev Addr := List Nat

/-- Stack words carry the numeric (big endian) value of a 32 byte array, below 2 ^ 256. -/
abbrev Word := Nat

/-- Error kinds from src/core_module/utils/errors.rs. -/
inductive ExecutionError where
  | OutOfBoundsByteCode
  | AccountNotFound
  | CodeNotFound
  | EmptyByteCode
  | InsufficientBalance
  | StaticCallStateChanged
  | InvalidOpcode (op : Nat)
  | InvalidJumpDestination
  | StackTooSmall
  | StackTooDeep
  | Revert (data : Bytes)
  | RevertWithoutData
  | NotImplemented (op : Nat)
  deriving DecidableEq, Repr

/-- Lookup in an association list, modelling HashMap.get. -/
def mapFind {α β : Type} [DecidableEq α] (m : List (α × β)) (k : α) : Option β :=
  match m with
  | [] => none
  | (k0, v0) :: rest => if k0 = k then some v0 else mapFind rest k

/-- Insertion into an association list, modelling HashMap.insert (replace on collision). -/
def mapInsert {α β : Type} [DecidableEq α] (m : List (α × β)) (k : α) (v : β) : List (α × β) :=
  match m with
  | [] => [(k, v)]
  | (k0, v0) :: rest => if k0 = k then (k, v) :: rest else (k0, v0) :: mapInsert rest k v

/-- Removal from an association list, modelling HashMap.remove. -/
def mapRemove {α β : Type} [DecidableEq α] (m : List (α × β)) (k : α) : List (α × β) :=
  match m with
  | [] => []
  | (k0, v0) :: rest => if k0 = k then rest else (k0, v0) :: mapRemove rest k

/-- Stack.push from src/core_module/stack.rs: errors when the stack already
holds 1024 words, otherwise appends the word as the new top. -/
def stackPush (word : Word) (s : List Word) : Except ExecutionError (List Word) :=
  if 1024 ≤ s.length then .error .StackTooDeep else .ok (word :: s)

/-- Stack.pop from src/core_module/stack.rs: errors on the empty stack. -/
def stackPop (s : List Word) : Except ExecutionError (Word × List Word) :=
  match s with
  | [] => .error .StackTooSmall
  | w :: rest => .ok (w, rest)

/-- Stack.swap from src/core_module/stack.rs.  The source checks only
stack.len() < index and then reads stack[len - 1] and stack[len - 1 - index];
when the length equals the index, the usize expression len - 1 - index
underflows and Rust panics, modelled here as none.  On success the top
(list index 0) and the item index positions below it are exchanged; the
word pair the source also returns is only used for debug printing and is
omitted. -/
def stackSwap (index : Nat) (s : List Word) : Option (Except ExecutionError (List Word)) :=
  if s.length < index then some (.error .StackTooSmall)
  else if s.length = index then none
  else some (.ok ((s.set 0 (s.getD index 0)).set index (s.getD 0 0)))

/-- Nearest multiple computation shared by Memory.read, Memory.mload and
Memory.mstore in src/core_module/memory.rs; it depends on the address only,
never on the size of the access. -/
def readNearestMultiple (address : Nat) : Nat :=
  if address % 32 = 0 then address + 32
  else (address + 32) + (32 - (address + 32) % 32)

/-- Nearest multiple computation of Memory.write in src/core_module/memory.rs. -/
def writeNearestMultiple (address dataLen : Nat) : Nat :=
  if address % 32 = 0 then address + dataLen + 32
  else (address + dataLen + 32) + (32 - (address + dataLen + 32) % 32)

/-- Extension step heap.extend(vec![0; nearest - heap.len()]): the usize
subtraction panics when nearest < heap.len(), modelled as none. -/
def memExtendTo (heap : Bytes) (nearest : Nat) : Option Bytes :=
  if nearest < heap.length then none
  else some (heap ++ List.replicate (nearest - heap.length) 0)

/-- Memory.read from src/core_module/memory.rs: extends the heap (to a bound
computed from the address alone) when address + size exceeds the current
length, then copies size bytes starting at address with ptr::copy; a copy
reaching past the end of the heap is undefined behaviour in the source and
is modelled as none.  Returns the heap after extension and the copied data. -/
def memRead (heap : Bytes) (address size : Nat) : Option (Bytes × Bytes) := do
  let heap2 ← if heap.length < address + size
    then memExtendTo heap (readNearestMultiple address) else some heap
  if address + size ≤ heap2.length then
    some (heap2, (heap2.drop address).take size)
  else none

/-- Memory.write from src/core_module/memory.rs: extends the heap when
address + data.len() exceeds the current length, then copies the data in
place at address.  Returns the heap after the write. -/
def memWrite (heap : Bytes) (address : Nat) (data : Bytes) : Option Bytes := do
  let heap2 ← if heap.length < address + data.length
    then memExtendTo heap (writeNearestMultiple address data.length) else some heap
  if address + data.length ≤ heap2.length then
    some ((heap2.take address) ++ data ++ heap2.drop (address + data.length))
  else none

/-- Rotation offsets of the keccak rho step, indexed by lane x + 5 * y and
generated by the standard recurrence: starting from lane (1, 0), lane t gets
offset (t + 1)(t + 2) / 2 mod 64 and the walk moves (x, y) to (y, 2x + 3y). -/
def rhoOffsets : List Nat :=
  ((List.range 24).foldl
    (fun st t =>
      let x := st.1
      let y := st.2.1
      let filled := st.2.2.set (x + 5 * y) ((t + 1) * (t + 2) / 2 % 64)
      (y, (2 * x + 3 * y) % 5, filled))
    (1, 0, List.replicate 25 0)).2.2

/-- One step of the degree 8 LFSR generating the keccak round constant bits. -/
def rcStep (R : Nat) : Nat := ((R <<< 1) ^^^ ((R >>> 7) * 0x71)) % 256

/-- Bit t of the keccak round constant stream. -/
def rcBit (t : Nat) : Nat := ((List.range t).foldl (fun R _ => rcStep R) 1) % 2

/-- Round constants of keccak-f[1600]: constant i collects the LFSR bits
7 i .. 7 i + 6 at bit positions 2 ^ j - 1. -/
def keccakRC : List Nat :=
  (List.range 24).map fun i =>
    (List.range 7).foldl (fun acc j => acc + rcBit (7 * i + j) * 2 ^ (2 ^ j - 1)) 0

/-- Rotate a 64 bit lane left by n bits (n below 64). -/
def rotl64 (x n : Nat) : Nat :=
  if n % 64 = 0 then x % 2 ^ 64
  else ((x <<< (n % 64)) ||| (x >>> (64 - n % 64))) % 2 ^ 64

/-- One round of keccak-f[1600] over 25 lanes (lane x + 5 * y at index x + 5 * y). -/
def keccakRound (A : List Nat) (rc : Nat) : List Nat :=
  let C := (List.range 5).map fun x =>
    ((((A.getD x 0) ^^^ (A.getD (x + 5) 0)) ^^^ (A.getD (x + 10) 0)) ^^^
      (A.getD (x + 15) 0)) ^^^ (A.getD (x + 20) 0)
  let D := (List.range 5).map fun x =>
    (C.getD ((x + 4) % 5) 0) ^^^ rotl64 (C.getD ((x + 1) % 5) 0) 1
  let A1 := (List.range 25).map fun i => (A.getD i 0) ^^^ (D.getD (i % 5) 0)
  let B := (List.range 25).foldl (fun acc i =>
    let x := i % 5
    let y := i / 5
    acc.set (y + 5 * ((2 * x + 3 * y) % 5)) (rotl64 (A1.getD i 0) (rhoOffsets.getD i 0)))
    (List.replicate 25 0)
  let A2 := (List.range 25).map fun i =>
    let x := i % 5
    let y := i / 5
    (B.getD i 0) ^^^
      (((B.getD ((x + 1) % 5 + 5 * y) 0) ^^^ (2 ^ 64 - 1)) &&& (B.getD ((x + 2) % 5 + 5 * y) 0))
  A2.set 0 ((A2.getD 0 0) ^^^ rc)

/-- Keccak-f[1600] permutation: 24 rounds. -/
def keccakF (A : List Nat) : List Nat := keccakRC.foldl keccakRound A

/-- Little endian numeric value of a byte string (up to 8 bytes). -/
def leVal (bs : Bytes) : Nat := bs.foldr (fun b acc => acc * 256 + b) 0

/-- Little endian serialisation of a 64 bit lane into 8 bytes. -/
def laneBytes (lane : Nat) : Bytes := (List.range 8).map fun i => lane / 2 ^ (8 * i) % 256

/-- Keccak pad10*1 for rate 136 with the legacy 0x01 domain byte. -/
def keccakPad (msg : Bytes) : Bytes :=
  let padLen := 136 - msg.length % 136
  if padLen = 1 then msg ++ [0x81]
  else msg ++ [0x01] ++ List.replicate (padLen - 2) 0 ++ [0x80]

/-- Keccak-256 as computed by ethers keccak256 in the source: absorb at rate
136 bytes, squeeze 32 bytes. -/
def keccak256 (msg : Bytes) : Bytes :=
  let padded := keccakPad msg
  let nBlocks := padded.length / 136
  let final := (List.range nBlocks).foldl (fun A blk =>
    let block := (padded.drop (136 * blk)).take 136
    let absorbed := (List.range 25).map fun i =>
      if i < 17 then (A.getD i 0) ^^^ leVal ((block.drop (8 * i)).take 8) else A.getD i 0
    keccakF absorbed) (List.replicate 25 0)
  ((final.take 4).map laneBytes).flatten

/-- Big endian numeric value of a byte string. -/
def beVal (bs : Bytes) : Nat := bs.foldl (fun acc b => acc * 256 + b) 0

/-- Big endian serialisation of a Nat into a fixed number of bytes
(u64_to_u256_array and to_big_endian in the source). -/
def natToBytesBE (len n : Nat) : Bytes :=
  (List.range len).map fun i => n / 2 ^ (8 * (len - 1 - i)) % 256

/-- Function bytes32_to_address from src/core_module/utils/bytes.rs: the low
20 bytes of a 32 byte word. -/
def bytes32ToAddress (w : Word) : Addr := natToBytesBE 20 (w % 2 ^ 160)

/-- Function strip_zero_padding from src/core_module/utils/bytes.rs. -/
def stripZeroPadding (arr : Bytes) : Bytes :=
  let start := (arr.findIdx? (fun x => x != 0)).getD 0
  let stop := (match arr.reverse.findIdx? (fun x => x != 0) with
    | some j => arr.length - 1 - j
    | none => 0) + 1
  (arr.take stop).drop start

/-- U256 as_usize and as_u64 from the primitive-types crate panic when the
value does not fit in 64 bits; the panic is modelled as none. -/
def asUsize (w : Word) : Option Nat := if w < 2 ^ 64 then some w else none

/-- U256 overflowing_add: wrapping 256 bit addition. -/
def overflowingAdd (a b : Word) : Word := (a + b) % 2 ^ 256

/-- U256 overflowing_mul: wrapping 256 bit multiplication. -/
def overflowingMul (a b : Word) : Word := (a * b) % 2 ^ 256

/-- U256 checked_rem: none when the divisor is zero. -/
def u256CheckedRem (a b : Word) : Option Word := if b = 0 then none else some (a % b)

/-- Two complement reading of a word as a 256 bit signed integer
(I256::from_raw on a U256 built with from_big_endian). -/
def toSigned (w : Word) : Int := if w < 2 ^ 255 then (w : Int) else (w : Int) - 2 ^ 256

/-- Two complement encoding of a 256 bit signed integer back into a word
(I256::to_big_endian). -/
def ofSigned (i : Int) : Word := (i % (2 ^ 256 : Int)).toNat

/-- I256 checked_div from ethers: none when the divisor is zero or when the
division overflows (the minimum value divided by minus one); otherwise the
quotient truncated toward zero. -/
def i256CheckedDiv (a b : Int) : Option Int :=
  if b = 0 then none
  else if a = -(2 ^ 255 : Int) ∧ b = -1 then none
  else some (Int.tdiv a b)

/-- Log records from src/core_module/state.rs. -/
structure Log where
  address : Addr
  topics : List Word
  data : Bytes
  deriving DecidableEq, Repr

/-- Account records from src/core_module/state.rs. -/
structure AccountState where
  nonce : Nat
  balance : Word
  storage : List (Word × Word)
  code_hash : Bytes
  deriving DecidableEq, Repr

/-- World state from src/core_module/state.rs.  The optional remote provider
is modelled as absent (None), the configuration all claims are about; every
embedded state function below follows the provider-is-None path of the
source. -/
structure EvmState where
  accounts : List (Addr × AccountState)
  codes : List (Bytes × Bytes)
  logs : List Log
  static_mode : Bool
  deriving DecidableEq, Repr

/-- EvmState.transfer from src/core_module/state.rs.  Both balances are read
before any write; the first write updates the sender, the second overwrites
the receiver with the sum computed from the original balances.  The U256
addition new_to_balance = to_balance + value panics on overflow (uint crate),
modelled as none. -/
def transferFn (s : EvmState) (frm dst : Addr) (value : Word) :
    Option (Except ExecutionError EvmState) :=
  if s.static_mode then some (.error .StaticCallStateChanged)
  else
    match mapFind s.accounts frm with
    | none => some (.error .AccountNotFound)
    | some fa =>
      match mapFind s.accounts dst with
      | none => some (.error .AccountNotFound)
      | some ta =>
        if fa.balance < value then some (.error .InsufficientBalance)
        else if 2 ^ 256 ≤ ta.balance + value then none
        else
          let accounts1 := mapInsert s.accounts frm { fa with balance := fa.balance - value }
          let accounts2 := match mapFind accounts1 dst with
            | some ta2 => mapInsert accounts1 dst { ta2 with balance := ta.balance + value }
            | none => accounts1
          some (.ok { s with accounts := accounts2 })

/-- EvmState.sload from src/core_module/state.rs on the provider-is-None
path: a missing account or a missing slot reads as the zero word (the source
wraps the word in Ok and never errors on this path). -/
def sloadFn (s : EvmState) (account : Addr) (slot : Word) : Word :=
  match mapFind s.accounts account with
  | some st => (mapFind st.storage slot).getD 0
  | none => 0

/-- EvmState.sstore from src/core_module/state.rs. -/
def sstoreFn (s : EvmState) (account : Addr) (slot value : Word) :
    Except ExecutionError EvmState :=
  if s.static_mode then .error .StaticCallStateChanged
  else
    match mapFind s.accounts account with
    | some st =>
      let st2 := { st with storage := mapInsert st.storage slot value }
      .ok { s with accounts := mapInsert s.accounts account st2 }
    | none => .error .AccountNotFound

/-- EvmState.get_code_at from src/core_module/state.rs on the
provider-is-None path. -/
def getCodeAt (s : EvmState) (address : Addr) : Except ExecutionError Bytes :=
  match mapFind s.accounts address with
  | some st =>
    match mapFind s.codes st.code_hash with
    | some code => .ok code
    | none => .error .CodeNotFound
  | none => .error .CodeNotFound

/-- EvmState.put_code from src/core_module/state.rs. -/
def putCode (s : EvmState) (code : Bytes) : Except ExecutionError (Bytes × EvmState) :=
  if s.static_mode then .error .StaticCallStateChanged
  else
    let h := keccak256 code
    .ok (h, { s with codes := mapInsert s.codes h code })

/-- EvmState.put_code_at from src/core_module/state.rs. -/
def putCodeAt (s : EvmState) (address : Addr) (code : Bytes) :
    Except ExecutionError EvmState :=
  match putCode s code with
  | .error e => .error e
  | .ok (h, s2) =>
    match mapFind s2.accounts address with
    | some st =>
      .ok { s2 with accounts := mapInsert s2.accounts address { st with code_hash := h } }
    | none => .error .AccountNotFound

/-- Function increment_nonce from src/core_module/utils/environment.rs. -/
def incrementNonce (s : EvmState) (address : Addr) : Except ExecutionError EvmState :=
  match mapFind s.accounts address with
  | none => .error .AccountNotFound
  | some a =>
    .ok { s with accounts := mapInsert s.accounts address { a with nonce := a.nonce + 1 } }

/-- Execution frame from src/core_module/runner.rs (the Runner struct). -/
structure Runner where
  pc : Nat
  bytecode : Bytes
  debug_level : Option Nat
  call_depth : Nat
  gas : Nat
  origin : Addr
  caller : Addr
  callvalue : Word
  address : Addr
  state : EvmState
  memory : Bytes
  calldata : Bytes
  returndata : Bytes
  stack : List Word
  deriving DecidableEq, Repr

/-- Modelled from the spec: the PUSH, DUP and SWAP handlers call a Runner
method decrement_gas whose definition is not part of src (only its call
sites are); the spec says a single running gas counter is maintained but not
enforced, so the model subtracts the cost from the counter. -/
def decrementGas (gas cost : Nat) : Nat := gas - cost

/-- Storage projection used by the theorems below: the stored word of an
account at a slot, none when the account or the slot is absent. -/
def storageAt (s : EvmState) (a : Addr) (slot : Word) : Option Word :=
  (mapFind s.accounts a).bind fun acct => mapFind acct.storage slot

/-- Opcode handlers return the mutated runner together with an optional
error (the Rust handlers mutate the runner in place and return a Result);
none models a Rust panic or an unmodelled behaviour. -/
abbrev StepResult := Option (Runner × Option ExecutionError)

/-- Handler push from src/core_module/op_codes/stack/push.rs: reads the next
data_len immediate bytes, pushes them left padded to 32 bytes, decrements
gas and advances the program counter past the immediate. -/
def pushOp (dataLen : Nat) (r : Runner) : StepResult :=
  if r.bytecode.length < r.pc + 1 + dataLen then some (r, some .OutOfBoundsByteCode)
  else
    let data := (r.bytecode.drop (r.pc + 1)).take dataLen
    match stackPush (beVal data) r.stack with
    | .error e => some (r, some e)
    | .ok s2 =>
      let r2 := { r with stack := s2, gas := decrementGas r.gas (if dataLen = 0 then 2 else 3) }
      some ({ r2 with pc := r2.pc + 1 + dataLen }, none)

/-- Handler sstore from src/core_module/op_codes/storage.rs: pops the slot
then the word, stores to runner.address and advances. -/
def sstoreOp (r : Runner) : StepResult :=
  match stackPop r.stack with
  | .error e => some (r, some e)
  | .ok (slot, s1) =>
    match stackPop s1 with
    | .error e => some ({ r with stack := s1 }, some e)
    | .ok (word, s2) =>
      let r2 := { r with stack := s2 }
      match sstoreFn r2.state r2.address slot word with
      | .error e => some (r2, some e)
      | .ok st => some ({ r2 with state := st, pc := r2.pc + 1 }, none)

/-- Handler sload from src/core_module/op_codes/storage.rs. -/
def sloadOp (r : Runner) : StepResult :=
  match stackPop r.stack with
  | .error e => some (r, some e)
  | .ok (slot, s1) =>
    let word := sloadFn r.state r.address slot
    match stackPush word s1 with
    | .error e => some ({ r with stack := s1 }, some e)
    | .ok s2 => some ({ r with stack := s2, pc := r.pc + 1 }, none)

/-- Handler jump from src/core_module/op_codes/flow.rs: pops the
destination, errors with OutOfBoundsByteCode only when the destination
exceeds the bytecode length, and otherwise sets the program counter to the
destination; the byte at the destination is never inspected. -/
def jumpOp (r : Runner) : StepResult :=
  match stackPop r.stack with
  | .error e => some (r, some e)
  | .ok (dest, s1) =>
    let r2 := { r with stack := s1 }
    match asUsize dest with
    | none => none
    | some d =>
      if r2.bytecode.length < d then some (r2, some .OutOfBoundsByteCode)
      else some ({ r2 with pc := d }, none)

/-- Handler jumpdest from src/core_module/op_codes/flow.rs: no operation. -/
def jumpdestOp (r : Runner) : StepResult :=
  some ({ r with pc := r.pc + 1 }, none)

/-- Handler stop from src/core_module/op_codes/flow.rs: sets the program
counter to the end of the bytecode. -/
def stopOp (r : Runner) : StepResult :=
  some ({ r with pc := r.bytecode.length }, none)

/-- Handler revert from src/core_module/op_codes/flow.rs: pops offset and
size, reads the memory window into the return data and halts with Revert
(or RevertWithoutData when the window is empty). -/
def revertOp (r : Runner) : StepResult :=
  match stackPop r.stack with
  | .error e => some (r, some e)
  | .ok (offset, s1) =>
    match stackPop s1 with
    | .error e => some ({ r with stack := s1 }, some e)
    | .ok (size, s2) =>
      let r2 := { r with stack := s2 }
      match asUsize offset, asUsize size with
      | some o, some sz =>
        match memRead r2.memory o sz with
        | none => none
        | some (heap2, data) =>
          let r3 := { r2 with memory := heap2, returndata := data }
          if 0 < data.length then some (r3, some (.Revert data))
          else some (r3, some .RevertWithoutData)
      | _, _ => none

/-- Handler sdiv from src/core_module/op_codes/arithmetic/signed.rs: pops a
(top) then b, computes I256 checked_div and pushes the quotient, with zero
substituted when checked_div returns none (division by zero or the minimum
value divided by minus one). -/
def sdivOp (r : Runner) : StepResult :=
  match stackPop r.stack with
  | .error e => some (r, some e)
  | .ok (pop1, s1) =>
    match stackPop s1 with
    | .error e => some ({ r with stack := s1 }, some e)
    | .ok (pop2, s2) =>
      let a := toSigned pop1
      let b := toSigned pop2
      let result := i256CheckedDiv a b
      let resultBytes := ofSigned (result.getD 0)
      match stackPush resultBytes s2 with
      | .error e => some ({ r with stack := s2 }, some e)
      | .ok s3 => some ({ r with stack := s3, pc := r.pc + 1 }, none)

/-- Handler addmod from src/core_module/op_codes/arithmetic/unsigned.rs:
pops a, b, c, computes overflowing_add (wrapping at 2 ^ 256) and then
checked_rem, pushing zero when c is zero. -/
def addmodOp (r : Runner) : StepResult :=
  match stackPop r.stack with
  | .error e => some (r, some e)
  | .ok (pop1, s1) =>
    match stackPop s1 with
    | .error e => some ({ r with stack := s1 }, some e)
    | .ok (pop2, s2) =>
      match stackPop s2 with
      | .error e => some ({ r with stack := s2 }, some e)
      | .ok (pop3, s3) =>
        let sum := overflowingAdd pop1 pop2
        let result := (u256CheckedRem sum pop3).getD 0
        match stackPush result s3 with
        | .error e => some ({ r with stack := s3 }, some e)
        | .ok s4 => some ({ r with stack := s4, pc := r.pc + 1 }, none)

/-- Handler mulmod from src/core_module/op_codes/arithmetic/unsigned.rs:
pops a, b, c, computes overflowing_mul (wrapping at 2 ^ 256) and then
checked_rem, pushing zero when c is zero. -/
def mulmodOp (r : Runner) : StepResult :=
  match stackPop r.stack with
  | .error e => some (r, some e)
  | .ok (pop1, s1) =>
    match stackPop s1 with
    | .error e => some ({ r with stack := s1 }, some e)
    | .ok (pop2, s2) =>
      match stackPop s2 with
      | .error e => some ({ r with stack := s2 }, some e)
      | .ok (pop3, s3) =>
        let product := overflowingMul pop1 pop2
        let result := (u256CheckedRem product pop3).getD 0
        match stackPush result s3 with
        | .error e => some ({ r with stack := s3 }, some e)
        | .ok s4 => some ({ r with stack := s4, pc := r.pc + 1 }, none)

/-- Address derivation slice of the CREATE handler
(src/core_module/op_codes/system.rs, the block computing contract_address):
the buffer takes the 0xd6 0x94 prefix, then runner.caller for the address
bytes, but the nonce comes from get_nonce(runner.address), the executing
account; the low 20 bytes of the keccak-256 digest form the new address. -/
def createAddress (r : Runner) : Except ExecutionError Addr :=
  match mapFind r.state.accounts r.address with
  | none => .error .AccountNotFound
  | some acct =>
    let input := [0xd6, 0x94] ++ r.caller ++ stripZeroPadding (natToBytesBE 32 acct.nonce)
    .ok ((keccak256 input).drop 12)

/-- Modelled from the wording of claim C8 and the spec: the buffer consists
of the prefix bytes 0xd6, 0x94, the caller address, and the current nonce of
the caller (both address bytes and nonce taken from the same account, the
caller). -/
def createAddressSpec (r : Runner) : Except ExecutionError Addr :=
  match mapFind r.state.accounts r.caller with
  | none => .error .AccountNotFound
  | some acct =>
    let input := [0xd6, 0x94] ++ r.caller ++ stripZeroPadding (natToBytesBE 32 acct.nonce)
    .ok ((keccak256 input).drop 12)

/-- Bundle of the mutually recursive interpreter entry points
(Runner.interpret, its dispatch loop, Runner.interpret_op_code, Runner.call
and the call and staticcall handlers).  The Rust functions recurse into one
another without bound; here the recursion is tied through a fuel tower
below: level fuel + 1 may enter any entry point of level fuel, and exhausted
fuel yields none. -/
structure Machine where
  interpretFn : Runner → Bytes → Option Nat → Bool → StepResult
  interpretLoop : Runner → StepResult
  interpretOpCode : Nat → Runner → StepResult
  runnerCall : Runner → Addr → Word → Bytes → Nat → Bool → StepResult
  sysCall : Runner → Bool → StepResult
  sysCallFinish : Runner → Addr → Word → Bytes → Nat → Word → Word → StepResult
  sysStaticcall : Runner → StepResult

/-- Machine with exhausted fuel: every entry point yields none. -/
def machineZero : Machine where
  interpretFn := fun _ _ _ _ => none
  interpretLoop := fun _ => none
  interpretOpCode := fun _ _ => none
  runnerCall := fun _ _ _ _ _ _ => none
  sysCall := fun _ _ => none
  sysCallFinish := fun _ _ _ _ _ _ _ => none
  sysStaticcall := fun _ => none

/-- One fuel level of the interpreter.  Each field is the direct translation
of the corresponding Rust function; recursive invocations go through the
previous level m.

interpretFn is Runner.interpret from src/core_module/runner.rs: installs the
bytecode, optionally installs it as the code of the executing address,
errors on empty bytecode, and otherwise drives the dispatch loop.

interpretLoop is the dispatch loop of Runner.interpret: while pc is inside
the bytecode, interpret the opcode at pc; an error breaks the loop and is
reported.

interpretOpCode is Runner.interpret_op_code, restricted to the opcodes the
claims exercise; every other opcode is left unmodelled and yields none (no
claim in this development is settled through them).

runnerCall is Runner.call from src/core_module/runner.rs.  It saves the
frame fields (caller, callvalue, address, calldata, returndata, memory,
stack, pc, debug_level, bytecode), installs the sub frame, interprets the
callee code, restores exactly those saved fields, propagates the return
data and increments the nonce of the (restored) executing address.  The
world state field is never saved nor restored.

sysCall is the handler call from src/core_module/op_codes/system.rs (used
for CALL with bypass_static false and for STATICCALL with bypass_static
true): checks the static flag, pops gas, target, value (zero and not popped
when bypassing), the calldata window and the returndata window, reads the
calldata from memory, performs the sub call, pushes 1 on success and 0 on
failure, pads or truncates the return data to the requested size and writes
it to memory; sysCallFinish is its continuation after the calldata read.

sysStaticcall is the handler staticcall: sets the static flag, runs the call
handler with bypass_static, and then sets the static flag to false
unconditionally (not to its previous value). -/
def machineSucc (m : Machine) : Machine where
  interpretFn := fun r bytecode debug initial =>
    let r1 := { r with bytecode := bytecode }
    match (if initial then putCodeAt r1.state r1.address r1.bytecode else .ok r1.state) with
    | .error e => some (r1, some e)
    | .ok st =>
      let r2 := { r1 with state := st, debug_level := debug }
      if r2.bytecode.isEmpty then some (r2, some .EmptyByteCode)
      else m.interpretLoop r2
  interpretLoop := fun r =>
    if r.pc < r.bytecode.length then
      match m.interpretOpCode (r.bytecode.getD r.pc 0) r with
      | none => none
      | some (r2, some e) => some (r2, some e)
      | some (r2, none) => m.interpretLoop r2
    else some (r, none)
  interpretOpCode := fun opcode r =>
    if opcode = 0x00 then stopOp r
    else if opcode = 0x05 then sdivOp r
    else if opcode = 0x08 then addmodOp r
    else if opcode = 0x09 then mulmodOp r
    else if opcode = 0x54 then sloadOp r
    else if opcode = 0x55 then sstoreOp r
    else if opcode = 0x56 then jumpOp r
    else if opcode = 0x5b then jumpdestOp r
    else if 0x5f ≤ opcode ∧ opcode ≤ 0x7f then pushOp (opcode - 0x5f) r
    else if opcode = 0xf1 then m.sysCall r false
    else if opcode = 0xfa then m.sysStaticcall r
    else if opcode = 0xfd then revertOp r
    else none
  runnerCall := fun r toAddr value calldata _gas delegate =>
    let initials := (r.caller, r.callvalue, r.address, r.calldata, r.returndata,
      r.memory, r.stack, r.pc, r.debug_level, r.bytecode)
    let r1 := if delegate then r
      else { r with caller := r.address, callvalue := value, address := toAddr }
    let newDebug := match r1.debug_level with
      | some l => if 1 < l then some (l - 1) else some 0
      | none => some 0
    let r2 := { r1 with call_depth := r1.call_depth + 1, calldata := calldata, returndata := [], memory := [], stack := [], pc := 0, debug_level := newDebug }
    match getCodeAt r2.state toAddr with
    | .error e => some (r2, some e)
    | .ok code =>
      match m.interpretFn r2 code r2.debug_level false with
      | none => none
      | some (r3, errOpt) =>
        let returnData := r3.returndata
        let r4 := { r3 with caller := if delegate then r3.caller else initials.1, callvalue := if delegate then r3.callvalue else initials.2.1, address := if delegate then r3.address else initials.2.2.1, calldata := initials.2.2.2.1, returndata := initials.2.2.2.2.1, memory := initials.2.2.2.2.2.1, stack := initials.2.2.2.2.2.2.1, pc := initials.2.2.2.2.2.2.2.1, debug_level := initials.2.2.2.2.2.2.2.2.1, bytecode := initials.2.2.2.2.2.2.2.2.2, call_depth := r3.call_depth - 1 }
        let r5 := { r4 with returndata := returnData }
        match incrementNonce r5.state r5.address with
        | .error e => some (r5, some e)
        | .ok st => some ({ r5 with state := st }, errOpt)
  sysCall := fun r bypassStatic =>
    if r.state.static_mode ∧ ¬bypassStatic then some (r, some .StaticCallStateChanged)
    else
      match stackPop r.stack with
      | .error e => some (r, some e)
      | .ok (gas, s1) =>
        match stackPop s1 with
        | .error e => some ({ r with stack := s1 }, some e)
        | .ok (toWord, s2) =>
          match (if bypassStatic then Except.ok ((0 : Word), s2) else stackPop s2) with
          | .error e => some ({ r with stack := s2 }, some e)
          | .ok (value, s3) =>
            match stackPop s3 with
            | .error e => some ({ r with stack := s3 }, some e)
            | .ok (cdOff, s4) =>
              match stackPop s4 with
              | .error e => some ({ r with stack := s4 }, some e)
              | .ok (cdSize, s5) =>
                match stackPop s5 with
                | .error e => some ({ r with stack := s5 }, some e)
                | .ok (rdOff, s6) =>
                  match stackPop s6 with
                  | .error e => some ({ r with stack := s6 }, some e)
                  | .ok (rdSize, s7) =>
                    let r2 := { r with stack := s7 }
                    match asUsize cdOff, asUsize cdSize with
                    | some o, some sz =>
                      match memRead r2.memory o sz with
                      | none => none
                      | some (heap2, calldata) =>
                        let r3 := { r2 with memory := heap2 }
                        match asUsize gas with
                        | none => none
                        | some g =>
                          m.sysCallFinish r3 (bytes32ToAddress toWord) value calldata g
                            rdOff rdSize
                    | _, _ => none
  sysCallFinish := fun r toAddr value calldata g rdOff rdSize =>
    match m.runnerCall r toAddr value calldata g false with
    | none => none
    | some (r4, callErr) =>
      match stackPush (if callErr.isSome then 0 else 1) r4.stack with
      | .error e => some (r4, some e)
      | .ok s8 =>
        let r5 := { r4 with stack := s8 }
        match asUsize rdSize, asUsize rdOff with
        | some rds, some rdo =>
          let rdata := r5.returndata
          let rdata2 := if rdata.length < rds
            then rdata ++ List.replicate (rds - rdata.length) 0 else rdata
          let rdata3 := rdata2.take rds
          match memWrite r5.memory rdo rdata3 with
          | none => none
          | some heap3 => some ({ r5 with memory := heap3, pc := r5.pc + 1 }, none)
        | _, _ => none
  sysStaticcall := fun r =>
    let r1 := { r with state := { r.state with static_mode := true } }
    match m.sysCall r1 true with
    | none => none
    | some (r2, res) =>
      some ({ r2 with state := { r2.state with static_mode := false } }, res)

/-- Fuel tower of interpreter levels. -/
def machine : Nat → Machine
  | 0 => machineZero
  | fuel + 1 => machineSucc (machine fuel)

/-- Runner.interpret at a given fuel level. -/
def interpretFn (fuel : Nat) (r : Runner) (bytecode : Bytes) (debug : Option Nat)
    (initial : Bool) : StepResult :=
  (machine fuel).interpretFn r bytecode debug initial

/-- Dispatch loop of Runner.interpret at a given fuel level. -/
def interpretLoop (fuel : Nat) (r : Runner) : StepResult :=
  (machine fuel).interpretLoop r

/-- Runner.interpret_op_code at a given fuel level. -/
def interpretOpCode (fuel : Nat) (opcode : Nat) (r : Runner) : StepResult :=
  (machine fuel).interpretOpCode opcode r

/-- Runner.call at a given fuel level. -/
def runnerCall (fuel : Nat) (r : Runner) (toAddr : Addr) (value : Word) (calldata : Bytes)
    (gas : Nat) (delegate : Bool) : StepResult :=
  (machine fuel).runnerCall r toAddr value calldata gas delegate

/-- Handler call at a given fuel level. -/
def sysCall (fuel : Nat) (r : Runner) (bypassStatic : Bool) : StepResult :=
  (machine fuel).sysCall r bypassStatic

/-- Handler staticcall at a given fuel level. -/
def sysStaticcall (fuel : Nat) (r : Runner) : StepResult :=
  (machine fuel).sysStaticcall r

/-- Empty world state used as a base for the concrete scenarios. -/
def emptyState : EvmState :=
  { accounts := [], codes := [], logs := [], static_mode := false }

/-- Runner builder for the concrete scenarios: program counter zero, the
default 30000000 gas of Runner.new, no debug output. -/
def mkRunner (st : EvmState) (callerA addrA : Addr) (stack : List Word) : Runner :=
  { pc := 0, bytecode := [], debug_level := none, call_depth := 0, gas := 30000000,
    origin := callerA, caller := callerA, callvalue := 0, address := addrA, state := st,
    memory := [], calldata := [], returndata := [], stack := stack }

/-- Scenario for C1: the called contract. -/
def c1B : Addr := List.replicate 20 0xbb

/-- Scenario for C1: the calling contract. -/
def c1A : Addr := List.replicate 20 0xaa

/-- Scenario for C1: callee code PUSH1 01, PUSH1 00, SSTORE, PUSH1 00,
PUSH1 00, REVERT (store 1 at slot 0, then revert with empty data). -/
def c1CodeB : Bytes := [0x60, 0x01, 0x60, 0x00, 0x55, 0x60, 0x00, 0x60, 0x00, 0xfd]

/-- Scenario for C1: code table key of the callee code (the emulator only
requires the account code_hash to match a key of the code table). -/
def c1HashB : Bytes := List.replicate 32 0xb1

/-- Scenario for C1: caller code pushes retSize 0, retOff 0, argsSize 0,
argsOff 0, value 0, the callee address and a gas word, executes CALL and
stops. -/
def c1CodeA : Bytes :=
  [0x60, 0x00, 0x60, 0x00, 0x60, 0x00, 0x60, 0x00, 0x60, 0x00] ++
    [0x73] ++ c1B ++ [0x60, 0xff, 0xf1, 0x00]

/-- Scenario for C1: pre-call world state, callee storage empty. -/
def c1State : EvmState :=
  { accounts :=
      [(c1A, { nonce := 1, balance := 0, storage := [], code_hash := List.replicate 32 0 }),
       (c1B, { nonce := 1, balance := 0, storage := [], code_hash := c1HashB })],
    codes := [(c1HashB, c1CodeB)], logs := [], static_mode := false }

/-- Scenario for C1: the outer frame. -/
def c1Runner : Runner := mkRunner c1State c1A c1A []

/-- Scenario for C2: a frame about to execute JUMP (opcode at pc 2) with
destination 1 on the stack; the byte at offset 1 is 0x01 (ADD), not the
JUMPDEST opcode 0x5b. -/
def c2Runner : Runner :=
  { mkRunner emptyState c1A c1A [1] with bytecode := [0x60, 0x01, 0x56], pc := 2 }

/-- Scenario for C3: outermost contract. -/
def c3A : Addr := List.replicate 20 0xa3

/-- Scenario for C3: middle contract, target of the outer STATICCALL. -/
def c3B : Addr := List.replicate 20 0xb3

/-- Scenario for C3: innermost contract, target of the nested STATICCALL. -/
def c3C : Addr := List.replicate 20 0xc3

/-- Scenario for C3: innermost code, a single STOP. -/
def c3CodeC : Bytes := [0x00]

/-- Scenario for C3: middle code: STATICCALL the innermost contract, then
PUSH1 01, PUSH1 00, SSTORE (a state mutation still inside the outer
STATICCALL sub-tree), then STOP. -/
def c3CodeB : Bytes :=
  [0x60, 0x00, 0x60, 0x00, 0x60, 0x00, 0x60, 0x00] ++ [0x73] ++ c3C ++
    [0x60, 0xff, 0xfa] ++ [0x60, 0x01, 0x60, 0x00, 0x55, 0x00]

/-- Scenario for C3: outer code: STATICCALL the middle contract, then STOP. -/
def c3CodeA : Bytes :=
  [0x60, 0x00, 0x60, 0x00, 0x60, 0x00, 0x60, 0x00] ++ [0x73] ++ c3B ++
    [0x60, 0xff, 0xfa, 0x00]

/-- Scenario for C3: code table keys. -/
def c3HashB : Bytes := List.replicate 32 0xb3

/-- Scenario for C3: code table key of the innermost code. -/
def c3HashC : Bytes := List.replicate 32 0xc3

/-- Scenario for C3: pre-call world state, static_mode off, middle contract
storage empty. -/
def c3State : EvmState :=
  { accounts :=
      [(c3A, { nonce := 1, balance := 0, storage := [], code_hash := List.replicate 32 0 }),
       (c3B, { nonce := 1, balance := 0, storage := [], code_hash := c3HashB }),
       (c3C, { nonce := 1, balance := 0, storage := [], code_hash := c3HashC })],
    codes := [(c3HashB, c3CodeB), (c3HashC, c3CodeC)], logs := [], static_mode := false }

/-- Scenario for C3: the outer frame. -/
def c3Runner : Runner := mkRunner c3State c3A c3A []

/-- Scenario for C6: a frame about to execute SDIV with the minimum signed
word on top (a) and minus one below it (b). -/
def c6Runner : Runner := mkRunner emptyState c1A c1A [2 ^ 255, 2 ^ 256 - 1]

/-- Scenario for C7: a frame about to execute ADDMOD with a = 2 ^ 256 - 1,
b = 1, c = 3; over the unbounded integers (a + b) mod 3 = 1, but the wrapped
sum is 0. -/
def c7Runner : Runner := mkRunner emptyState c1A c1A [2 ^ 256 - 1, 1, 3]

/-- Scenario for C8: the frame caller. -/
def c8Caller : Addr := List.replicate 20 0x11

/-- Scenario for C8: the executing account (the account invoking CREATE). -/
def c8Address : Addr := List.replicate 20 0x22

/-- Scenario for C8: state where the caller has nonce 1 and the executing
account has nonce 2, so the two derivations differ. -/
def c8State : EvmState :=
  { accounts :=
      [(c8Caller, { nonce := 1, balance := 0, storage := [], code_hash := List.replicate 32 0 }),
       (c8Address, { nonce := 2, balance := 0, storage := [], code_hash := List.replicate 32 0 })],
    codes := [], logs := [], static_mode := false }

/-- Scenario for C8: the frame executing CREATE. -/
def c8Runner : Runner := mkRunner c8State c8Caller c8Address []

/-- Runner matching the repository test test_create at the moment CREATE
runs: caller 0xbe86...f74c and an executing account whose nonce is 1. -/
def c8TestRunner : Runner :=
  mkRunner
    { accounts :=
        [([0xbe, 0x86, 0x2a, 0xd9, 0xab, 0xfe, 0x6f, 0x22, 0xbc, 0xb0,
           0x87, 0x71, 0x6c, 0x7d, 0x89, 0xa2, 0x60, 0x51, 0xf7, 0x4c],
          { nonce := 1, balance := 0, storage := [], code_hash := List.replicate 32 0 }),
         (List.replicate 20 0xab,
          { nonce := 1, balance := 0, storage := [], code_hash := List.replicate 32 0 })],
      codes := [], logs := [], static_mode := false }
    [0xbe, 0x86, 0x2a, 0xd9, 0xab, 0xfe, 0x6f, 0x22, 0xbc, 0xb0,
     0x87, 0x71, 0x6c, 0x7d, 0x89, 0xa2, 0x60, 0x51, 0xf7, 0x4c]
    (List.replicate 20 0xab) []

/-- Scenario for C10: the self transferring account. -/
def c10A : Addr := List.replicate 20 0x77

/-- Scenario for C10: state whose single account holds the maximal balance,
so that a self transfer of the full balance overflows the U256 addition. -/
def c10OverflowState : EvmState :=
  { accounts :=
      [(c10A, { nonce := 1, balance := 2 ^ 256 - 1, storage := [], code_hash := List.replicate 32 0 })],
    codes := [], logs := [], static_mode := false }

/-- Witness runner for C6: SDIV with 7 on top and 3 below. -/
def c6WitnessRunner : Runner := mkRunner emptyState c1A c1A [7, 3]

/-- Witness runner for C7: ADDMOD and MULMOD with a = 10, b = 20, c = 7. -/
def c7WitnessRunner : Runner := mkRunner emptyState c1A c1A [10, 20, 7]

/-- Caller of the repository test test_create. -/
def c8TestCaller : Addr :=
  [0xbe, 0x86, 0x2a, 0xd9, 0xab, 0xfe, 0x6f, 0x22, 0xbc, 0xb0,
   0x87, 0x71, 0x6c, 0x7d, 0x89, 0xa2, 0x60, 0x51, 0xf7, 0x4c]

/-- Variant of the test runner for C8: same caller and same executing
account nonce, but a different executing address, balance and storage; the
derived address must not change. -/
def c8VariantRunner : Runner :=
  mkRunner
    { accounts :=
        [(List.replicate 20 0xcd,
          { nonce := 1, balance := 999, storage := [(5, 6)], code_hash := List.replicate 32 0 })],
      codes := [], logs := [], static_mode := false }
    c8TestCaller (List.replicate 20 0xcd) []

/-- Witness state for C10: one account with balance 10. -/
def c10WitnessState : EvmState :=
  { accounts :=
      [(c10A, { nonce := 1, balance := 10, storage := [], code_hash := List.replicate 32 0 })],
    codes := [], logs := [], static_mode := false }

/-- Helper for C10: looking up the key just inserted returns the inserted
value. -/
theorem mapFind_mapInsert {α β : Type} [DecidableEq α] (m : List (α × β)) (k : α) (v : β) :
    mapFind (mapInsert m k v) k = some v := by
  induction m with
  | nil => simp [mapInsert, mapFind]
  | cons p rest ih =>
    obtain ⟨k0, v0⟩ := p
    by_cases h : k0 = k
    · simp [mapInsert, mapFind, h]
    · simp [mapInsert, mapFind, h, ih]

/-- Validation of the keccak-256 embedding against a known digest: the hash
of the four bytes ff ff ff ff. -/
theorem keccak256_matches_known_vector :
    keccak256 (List.replicate 4 0xff) =
      [0x29, 0x04, 0x5a, 0x59, 0x20, 0x07, 0xd0, 0xc2, 0x46, 0xef, 0x02, 0xc2,
       0x22, 0x35, 0x70, 0xda, 0x95, 0x22, 0xd0, 0xcf, 0x0f, 0x73, 0x28, 0x2c,
       0x79, 0xa1, 0xbc, 0x8f, 0x0b, 0xb2, 0xc2, 0x38] := rfl

/-- Validation of the CREATE address derivation against the repository test
test_create, which expects the address 0x9bbf...45d8 for this caller and an
executing account of nonce 1. -/
theorem createAddress_matches_repo_test :
    createAddress c8TestRunner =
      .ok [0x9b, 0xbf, 0xed, 0x68, 0x89, 0x32, 0x2e, 0x01, 0x6e, 0x0a,
           0x02, 0xee, 0x45, 0x9d, 0x30, 0x6f, 0xc1, 0x95, 0x45, 0xd8] := rfl

/-- Claim C1: after a sub-call that reverts, the spec requires the parent
world state to be rolled back to the pre-call snapshot and zero to be pushed.
In the code Runner.call never saves nor restores the world state, so the
storage write performed by the reverting callee persists: in the concrete
scenario the callee stores 1 at slot 0 and reverts, and after the CALL the
parent observes the pushed 0 but the slot still holds 1 (it was empty before
the call). -/
theorem c1_subcall_revert_keeps_state_mutations :
    (interpretFn 100 c1Runner c1CodeA none false).map
        (fun p => (p.1.stack, storageAt p.1.state c1B 0, p.2)) =
      some ([0], some 1, none) ∧ storageAt c1State c1B 0 = none :=
  ⟨by decide, rfl⟩

/-- Claim C2: the spec requires JUMP to halt with an invalid-jump error when
the destination byte is not JUMPDEST.  The code only compares the
destination against the bytecode length: jumping to offset 1, whose byte is
0x01 (ADD) and not 0x5b (JUMPDEST), succeeds and sets the program counter
to 1. -/
theorem c2_jump_accepts_non_jumpdest_destination :
    (jumpOp c2Runner).map (fun p => (p.1.pc, p.2)) = some (1, none) ∧
      c2Runner.bytecode.getD 1 0 ≠ 0x5b :=
  ⟨rfl, by decide⟩

/-- Claim C3: the spec requires static_mode to stay true throughout a
STATICCALL sub-tree.  The staticcall handler resets the flag to false
unconditionally after its call, so a nested STATICCALL turns the flag off
for the rest of the enclosing static sub-tree: in the concrete scenario the
outer contract STATICCALLs a middle contract which STATICCALLs an inner
contract and then executes SSTORE; the SSTORE succeeds (slot 0 of the middle
contract holds 1 after the run, empty before) even though it sits inside the
outer STATICCALL sub-tree, and the outer STATICCALL pushes 1. -/
theorem c3_nested_staticcall_clears_static_mode :
    (interpretFn 200 c3Runner c3CodeA none false).map
        (fun p => (p.1.stack, storageAt p.1.state c3B 0, p.1.state.static_mode, p.2)) =
      some ([1], some 1, false, none) ∧ storageAt c3State c3B 0 = none :=
  ⟨by decide, rfl⟩

/-- Claim C4: the spec requires the memory length to be a multiple of 32
after any expanding access.  In the Memory.write branch where the address is
32 aligned the source extends the heap to address + data.len() + 32, which
is not a multiple of 32: writing one byte at offset 0 into empty memory
leaves a heap of 33 bytes. -/
theorem c4_memory_write_length_not_multiple_of_32 :
    (memWrite [] 0 [0xff]).map List.length = some 33 ∧ 33 % 32 ≠ 0 :=
  ⟨rfl, by decide⟩

/-- Claim C5: the spec requires read(offset, size) to expand memory to cover
offset + size rounded up to 32 bytes.  The extension bound of Memory.read is
computed from the address alone: reading 64 bytes at offset 0 of empty
memory extends the heap to 32 bytes only (below the 64 the claim requires),
and the subsequent ptr::copy of 64 bytes reads past the end of the heap,
which is undefined behaviour (modelled as none). -/
theorem c5_memory_read_expansion_ignores_size :
    memRead ([] : Bytes) 0 64 = none ∧
      (memExtendTo [] (readNearestMultiple 0)).map List.length = some 32 ∧ 32 < 0 + 64 :=
  ⟨rfl, rfl, by decide⟩

/-- Claim C9: the spec says swap(n) on a stack of length at most n returns
the stack-underflow error with no other failure mode.  The source checks
only length < n; at length exactly n the usize expression len - 1 - index
underflows and the process panics (none), while at length below n the error
is returned and at length n + 1 the swap succeeds. -/
theorem c9_swap_panics_when_length_equals_n :
    stackSwap 1 [7] = none ∧
      stackSwap 1 [] = some (.error .StackTooSmall) ∧
      stackSwap 1 [7, 8] = some (.ok [8, 7]) :=
  ⟨rfl, rfl, rfl⟩

/-- Counterexample for C6: with the minimum signed word on top (a) and minus
one below (b), the claim says SDIV pushes the minimum signed value 2 ^ 255;
the code computes checked_div, receives none and pushes zero. -/
theorem c6_sdiv_min_by_minus_one_pushes_zero :
    (sdivOp c6Runner).map (fun p => (p.1.stack, p.2)) = some ([0], none) ∧
      toSigned (2 ^ 255) = -(2 ^ 255 : Int) ∧
      toSigned (2 ^ 256 - 1) = -1 ∧ (0 : Word) ≠ 2 ^ 255 :=
  ⟨rfl, by decide, by decide, by decide⟩

/-- Claim C6 as amended: SDIV pushes the quotient of the two popped words
read as 256 bit two complement integers, truncated toward zero; it pushes
zero when the divisor is zero, and it also pushes zero (not the minimum
signed value) when the dividend is the minimum signed value and the divisor
is minus one. -/
theorem c6_sdiv_checked_semantics (a b : Word) (rest : List Word) (r : Runner)
    (hs : r.stack = a :: b :: rest) (hlen : rest.length < 1024) :
    sdivOp r = some ({ r with
      stack := (if toSigned b = 0 ∨ (toSigned a = -(2 ^ 255 : Int) ∧ toSigned b = -1) then 0
        else ofSigned (Int.tdiv (toSigned a) (toSigned b))) :: rest,
      pc := r.pc + 1 }, none) := by
  have hval : ∀ A B : Int, ofSigned ((i256CheckedDiv A B).getD 0) =
      if B = 0 ∨ (A = -(2 ^ 255 : Int) ∧ B = -1) then 0 else ofSigned (Int.tdiv A B) := by
    intro A B
    by_cases hB : B = 0
    · simp [i256CheckedDiv, hB, ofSigned]
    · by_cases hAB : A = -(2 ^ 255 : Int) ∧ B = -1
      · simp [i256CheckedDiv, hB, hAB, ofSigned]
      · rw [i256CheckedDiv, if_neg hB, if_neg hAB, if_neg ?hcond]
        case hcond => rintro (h | h)
                      · exact hB h
                      · exact hAB h
        rfl
  simp [sdivOp, hs, stackPop, stackPush, Nat.not_le.mpr hlen, hval]

/-- Witness for the amended C6 theorem at a = 7, b = 3. -/
theorem c6_sdiv_checked_semantics_witness :
    sdivOp c6WitnessRunner = some ({ c6WitnessRunner with
      stack := (if toSigned 3 = 0 ∨ (toSigned 7 = -(2 ^ 255 : Int) ∧ toSigned 3 = -1) then 0
        else ofSigned (Int.tdiv (toSigned 7) (toSigned 3))) :: [],
      pc := c6WitnessRunner.pc + 1 }, none) :=
  c6_sdiv_checked_semantics 7 3 [] c6WitnessRunner rfl (by decide)

/-- Counterexample for C7: with a = 2 ^ 256 - 1, b = 1, c = 3 the sum over
the unbounded integers is 2 ^ 256, whose remainder modulo 3 is 1, but the
code wraps the sum to 0 first and pushes 0. -/
theorem c7_addmod_wraps_intermediate_sum :
    (addmodOp c7Runner).map (fun p => (p.1.stack, p.2)) = some ([0], none) ∧
      ((2 ^ 256 - 1) + 1) % 3 = 1 ∧ (0 : Word) ≠ 1 :=
  ⟨rfl, by decide, by decide⟩

/-- Claim C7 as amended: ADDMOD pushes ((a + b) mod 2 ^ 256) mod c and
MULMOD pushes ((a * b) mod 2 ^ 256) mod c — the sum and product are first
reduced modulo 2 ^ 256 (U256 overflowing arithmetic) — and both push zero
when c is zero. -/
theorem c7_addmod_mulmod_reduce_mod_2pow256 (a b c : Word) (rest : List Word) (r1 r2 : Runner)
    (h1 : r1.stack = a :: b :: c :: rest) (h2 : r2.stack = a :: b :: c :: rest)
    (hlen : rest.length < 1024) :
    addmodOp r1 = some ({ r1 with
        stack := (if c = 0 then 0 else ((a + b) % 2 ^ 256) % c) :: rest,
        pc := r1.pc + 1 }, none) ∧
      mulmodOp r2 = some ({ r2 with
        stack := (if c = 0 then 0 else ((a * b) % 2 ^ 256) % c) :: rest,
        pc := r2.pc + 1 }, none) := by
  have hrem : ∀ x y : Word, (u256CheckedRem x y).getD 0 = if y = 0 then 0 else x % y := by
    intro x y
    by_cases hy : y = 0
    · simp [u256CheckedRem, hy]
    · simp [u256CheckedRem, hy]
  constructor
  · simp [addmodOp, h1, stackPop, stackPush, Nat.not_le.mpr hlen, hrem, overflowingAdd]
  · simp [mulmodOp, h2, stackPop, stackPush, Nat.not_le.mpr hlen, hrem, overflowingMul]

/-- Witness for the amended C7 theorem at a = 10, b = 20, c = 7. -/
theorem c7_addmod_mulmod_reduce_mod_2pow256_witness :
    addmodOp c7WitnessRunner = some ({ c7WitnessRunner with
        stack := (if 7 = 0 then 0 else ((10 + 20) % 2 ^ 256) % 7) :: [],
        pc := c7WitnessRunner.pc + 1 }, none) ∧
      mulmodOp c7WitnessRunner = some ({ c7WitnessRunner with
        stack := (if 7 = 0 then 0 else ((10 * 20) % 2 ^ 256) % 7) :: [],
        pc := c7WitnessRunner.pc + 1 }, none) :=
  c7_addmod_mulmod_reduce_mod_2pow256 10 20 7 [] c7WitnessRunner c7WitnessRunner rfl rfl
    (by decide)

/-- Counterexample for C8: in a state where the caller has nonce 1 and the
executing account has nonce 2, the address the code derives (using the nonce
of the executing account) differs from the address the claim describes
(using the nonce of the caller). -/
theorem c8_create_address_differs_from_spec :
    createAddress c8Runner =
        .ok [0x39, 0xc2, 0x54, 0x0c, 0xc6, 0x4c, 0x85, 0x62, 0x26, 0x92,
             0x00, 0xee, 0x45, 0x9d, 0xc2, 0x85, 0x3a, 0xab, 0x9d, 0x87] ∧
      createAddressSpec c8Runner =
        .ok [0x15, 0x45, 0x2e, 0xc0, 0x16, 0xc4, 0xdc, 0x8c, 0x54, 0x9e,
             0x7f, 0xe6, 0xff, 0x4b, 0x26, 0x32, 0x4e, 0xa8, 0xb7, 0xa4] ∧
      ([0x39, 0xc2, 0x54, 0x0c, 0xc6, 0x4c, 0x85, 0x62, 0x26, 0x92,
        0x00, 0xee, 0x45, 0x9d, 0xc2, 0x85, 0x3a, 0xab, 0x9d, 0x87] : Bytes) ≠
        [0x15, 0x45, 0x2e, 0xc0, 0x16, 0xc4, 0xdc, 0x8c, 0x54, 0x9e,
         0x7f, 0xe6, 0xff, 0x4b, 0x26, 0x32, 0x4e, 0xa8, 0xb7, 0xa4] :=
  ⟨rfl, rfl, by decide⟩

/-- Claim C8 as amended: CREATE derives the new address as the low 20 bytes
of the keccak-256 of the buffer 0xd6, 0x94, the caller address bytes, and
the stripped big endian nonce of the executing account (runner.address, not
the caller); the derived address is a function of the caller address and the
nonce of the executing account only — any state agreeing on those two values
derives the same address. -/
theorem c8_create_address_caller_bytes_callee_nonce (r r2 : Runner)
    (acct acct2 : AccountState)
    (h : mapFind r.state.accounts r.address = some acct)
    (h2 : mapFind r2.state.accounts r2.address = some acct2)
    (hc : r2.caller = r.caller) (hn : acct2.nonce = acct.nonce) :
    createAddress r = .ok ((keccak256 ([0xd6, 0x94] ++ r.caller ++
        stripZeroPadding (natToBytesBE 32 acct.nonce))).drop 12) ∧
      createAddress r2 = createAddress r := by
  constructor
  · simp [createAddress, h]
  · simp [createAddress, h, h2, hc, hn]

/-- Witness for the amended C8 theorem: the repository test runner and a
variant with a different executing address, balance and storage but the same
caller and the same executing account nonce. -/
theorem c8_create_address_caller_bytes_callee_nonce_witness :
    createAddress c8TestRunner = .ok ((keccak256 ([0xd6, 0x94] ++ c8TestRunner.caller ++
        stripZeroPadding (natToBytesBE 32 1))).drop 12) ∧
      createAddress c8VariantRunner = createAddress c8TestRunner :=
  c8_create_address_caller_bytes_callee_nonce c8TestRunner c8VariantRunner
    { nonce := 1, balance := 0, storage := [], code_hash := List.replicate 32 0 }
    { nonce := 1, balance := 999, storage := [(5, 6)], code_hash := List.replicate 32 0 }
    rfl rfl rfl rfl

/-- Counterexample for C10: the claim quantifies over every value up to the
balance, but with balance and value both 2 ^ 256 - 1 the U256 addition
to_balance + value panics (modelled none) instead of succeeding, even though
from equals to, static mode is off, the account exists and the balance
covers the value. -/
theorem c10_self_transfer_overflow_panics :
    c10OverflowState.static_mode = false ∧
      (mapFind c10OverflowState.accounts c10A).map AccountState.balance =
        some (2 ^ 256 - 1) ∧
      transferFn c10OverflowState c10A c10A (2 ^ 256 - 1) = none :=
  ⟨rfl, rfl, rfl⟩

/-- Claim C10 as amended: a self transfer with static mode off, an existing
account, value at most the balance and balance + value below 2 ^ 256
succeeds and leaves the account with balance plus value (the value is
created out of nothing): the sender update is overwritten by the receiver
update computed from the original balance. -/
theorem c10_self_transfer_adds_value (s : EvmState) (a : Addr) (v : Word)
    (acct : AccountState) (hstatic : s.static_mode = false)
    (hfind : mapFind s.accounts a = some acct) (hval : v ≤ acct.balance)
    (hov : acct.balance + v < 2 ^ 256) :
    (transferFn s a a v).map
        (Except.map fun s2 => (mapFind s2.accounts a).map AccountState.balance) =
      some (.ok (some (acct.balance + v))) := by
  simp only [transferFn, hstatic, hfind, if_neg (Nat.not_lt.mpr hval),
    Bool.false_eq_true, if_false, Option.map_some, Except.map]
  rw [if_neg (Nat.not_le.mpr hov)]
  simp [Except.map, mapFind_mapInsert]

/-- Witness for the amended C10 theorem: balance 10, value 5, final balance
15. -/
theorem c10_self_transfer_adds_value_witness :
    (transferFn c10WitnessState c10A c10A 5).map
        (Except.map fun s2 => (mapFind s2.accounts c10A).map AccountState.balance) =
      some (.ok (some (10 + 5))) :=
  c10_self_transfer_adds_value c10WitnessState c10A 5
    { nonce := 1, balance := 10, storage := [], code_hash := List.replicate 32 0 }
    rfl rfl (by decide) (by norm_num)

end EvmRs
